import Mathlib

/-!
Verification of the resume client's pure logic.

A shallow embedding of the resume web client's error-classification,
retry-backoff, configuration-fallback, payload/response-validation and
URL-building logic, together with theorems settling the specified
properties of those functions.

JavaScript strings are modelled as Lean `String`s (or `List Char` where
character-level reasoning is needed), JavaScript numbers that the code
treats as integers as `Int`/`Nat`, untyped JSON payloads as an inductive
`JsonValue`, and thrown JavaScript values as a record of the dynamic
type tests the code performs (`JSError`).
-/

set_option maxHeartbeats 1000000
set_option maxRecDepth 100000

/-- Substring relation on strings: `pat` occurs contiguously inside `s`
(the semantics of JavaScript `String.prototype.includes`). -/
def Substr (pat s : String) : Prop := pat.toList <:+: s.toList

instance (pat s : String) : Decidable (Substr pat s) :=
  List.decidableInfix pat.toList s.toList

/-- Executable form of `Substr`, used where the source calls `.includes`. -/
def jsIncludes (s pat : String) : Bool := decide (Substr pat s)

/-- The `ApiErrorType` from `types/api.ts`: the four error categories. -/
inductive ApiErrorType where
  | network
  | validation
  | server
  | unknown
deriving DecidableEq, Repr

/-- The dynamic type tests JavaScript code can make on a thrown value.
A thrown value is modelled by the outcomes of the `instanceof` /
`typeof` checks `classifyError` performs, plus its `name`, `message`
and numeric `status` fields (`status = none` models an absent or
non-numeric `status` property). -/
structure JSError where
  isDOMException : Bool := false
  name : String := ""
  isTypeError : Bool := false
  isResponse : Bool := false
  isError : Bool := false
  isObject : Bool := false
  message : String := ""
  status : Option Int := none
deriving DecidableEq, Repr

/-- The `ApiError` from `types/api.ts`. -/
structure ApiError where
  type : ApiErrorType
  message : String
  originalError : Option JSError := none
  statusCode : Option Int := none
deriving DecidableEq, Repr

/-- The `status` comparison used by the two HTTP-status branches of
`classifyError`: true when the value has a numeric `status` at least `n`. -/
def statusGe (st : Option Int) (n : Int) : Bool :=
  match st with
  | some s => decide (n ≤ s)
  | none => false

/-- The `classifyError` from `src/utils/errorHandling.ts`: maps any thrown
value to exactly one `ApiError`, first match wins. -/
def classifyError (e : JSError) : ApiError :=
  if e.isDOMException && e.name == "AbortError" then
    { type := .network, message := "Request was cancelled", originalError := some e }
  else if e.isTypeError &&
      (jsIncludes e.message.toLower "fetch" ||
       jsIncludes e.message.toLower "network" ||
       jsIncludes e.message.toLower "failed to fetch") then
    { type := .network, message := "Unable to connect to server", originalError := some e }
  else if e.isResponse && statusGe e.status 500 then
    { type := .server, message := "Server error occurred", statusCode := e.status }
  else if e.isResponse && statusGe e.status 400 then
    { type := .validation, message := "Invalid request", statusCode := e.status }
  else if e.isObject && statusGe e.status 500 then
    { type := .server, message := "Server error occurred", statusCode := e.status }
  else if e.isObject && statusGe e.status 400 then
    { type := .validation, message := "Invalid request", statusCode := e.status }
  else if e.isError &&
      (jsIncludes e.message.toLower "network" ||
       jsIncludes e.message.toLower "timeout" ||
       jsIncludes e.message.toLower "econnrefused" ||
       jsIncludes e.message.toLower "enotfound" ||
       jsIncludes e.message.toLower "connection") then
    { type := .network, message := "Unable to connect to server", originalError := some e }
  else if e.isError &&
      (jsIncludes e.message.toLower "validation" ||
       jsIncludes e.message.toLower "invalid" ||
       jsIncludes e.message.toLower "required") then
    { type := .validation, message := "Invalid data provided", originalError := some e }
  else if e.isError then
    { type := .unknown, message := "An unexpected error occurred", originalError := some e }
  else
    { type := .unknown, message := "An unexpected error occurred",
      originalError := if e.isError then some e else none }

/-- A real `Response` object with the given HTTP status (it is an object
with a numeric `status`, and passes `instanceof Response`). -/
def mkResponse (s : Int) : JSError :=
  { isResponse := true, isObject := true, status := some s }

/-- A plain object exposing a numeric `status` property (duck-typed
response): not a `Response`, `Error`, `TypeError` or `DOMException`. -/
def mkStatusObject (s : Int) : JSError :=
  { isObject := true, status := some s }

/-- The `createUserFriendlyMessage` from `src/utils/errorHandling.ts`:
a fixed human-readable sentence indexed by the error kind. -/
def createUserFriendlyMessage (e : ApiError) : String :=
  match e.type with
  | .network =>
    "Unable to connect to the server. Please check your internet connection and try again."
  | .validation =>
    "The information provided is not valid. Please check your input and try again."
  | .server =>
    "The server encountered an issue. Please try again later."
  | .unknown =>
    "Something went wrong. Please try again."

/-- The `RetryConfig` from `src/utils/errorHandling.ts`. Delays are
millisecond counts, modelled as naturals. -/
structure RetryConfig where
  maxAttempts : Nat
  baseDelayMs : Nat
  maxDelayMs : Nat
deriving DecidableEq, Repr

/-- The `DEFAULT_RETRY_CONFIG` from `src/utils/errorHandling.ts`. -/
def DEFAULT_RETRY_CONFIG : RetryConfig :=
  { maxAttempts := 3, baseDelayMs := 1000, maxDelayMs := 30000 }

/-- The `calculateRetryDelay` from `src/utils/errorHandling.ts`:
`min(baseDelay * 2^max(0, attempt), maxDelay)`.  The attempt number may
be negative (clamped to zero by `Math.max`). -/
def calculateRetryDelay (attempt : Int) (config : RetryConfig) : Nat :=
  let safeAttempt := max 0 attempt
  let exponentialDelay := config.baseDelayMs * 2 ^ safeAttempt.toNat
  min exponentialDelay config.maxDelayMs

/-- The `isRetryableError` from `src/utils/errorHandling.ts`. -/
def isRetryableError (e : ApiError) : Bool :=
  e.type == .network || e.type == .server

/-! ## Config resolver (`src/constants/config.ts`) -/

/-- A value of the configuration domain: raw strings, numbers
(including the distinguished not-a-number), or `undefined`.  `getConfigValue`
is generic in TypeScript; the repository instantiates it at strings and
numbers, and its invalid-parse test distinguishes exactly `undefined` and
`NaN`, so this type is the relevant value universe. -/
inductive CVal where
  | vStr (s : String)
  | vNum (n : Int)
  | vNaN
  | vUndef
deriving DecidableEq, Repr

/-- String interpolation of a `CVal`, as a JavaScript template literal
would print it. -/
def cvalToString : CVal → String
  | .vStr s => s
  | .vNum n => toString n
  | .vNaN => "NaN"
  | .vUndef => "undefined"

/-- The test `parsed === undefined || (typeof parsed === 'number' && isNaN(parsed))`
from `getConfigValue`. -/
def isInvalidParse : CVal → Bool
  | .vUndef => true
  | .vNaN => true
  | _ => false

/-- The `getConfigValue` from `src/constants/config.ts`.  Returns the
resolved value together with the list of `console.warn` messages emitted
(the side channel), in order. -/
def getConfigValue (envValue : Option String) (defaultValue : CVal)
    (configName : String) (parserFn : Option (String → CVal)) : CVal × List String :=
  match envValue with
  | none =>
    (defaultValue,
     ["Configuration \"" ++ configName ++ "\" is missing. Using default value: "
        ++ cvalToString defaultValue])
  | some s =>
    if s = "" then
      (defaultValue,
       ["Configuration \"" ++ configName ++ "\" is missing. Using default value: "
          ++ cvalToString defaultValue])
    else
      match parserFn with
      | some p =>
        let parsed := p s
        if isInvalidParse parsed then
          (defaultValue,
           ["Configuration \"" ++ configName ++ "\" has invalid value \"" ++ s
              ++ "\". Using default value: " ++ cvalToString defaultValue])
        else
          (parsed, [])
      | none => (.vStr s, [])

/-! ## HTTP client core (`src/services/api/client.ts`) -/

/-- The two signals combined by `combineAbortSignals` in
`ApiClient.request`: the internal timeout signal and the caller-supplied
cancellation signal. -/
inductive AbortSource where
  | timeoutSignal
  | callerSignal
deriving DecidableEq, Repr

/-- Modelled from the spec (4.5, 5): aborting an in-flight `fetch`
through the combined signal makes it reject with a `DOMException` named
`"AbortError"`, regardless of which of the two source signals fired —
the platform's abort exception does not record the origin. -/
def abortException (_src : AbortSource) : JSError :=
  { isDOMException := true, name := "AbortError", isError := true,
    isObject := true, message := "The operation was aborted." }

/-- The `catch` clause of `ApiClient.request`: an `AbortError`
`DOMException` is converted directly to the cancelled-network error;
every other thrown value goes through `classifyError`. -/
def requestCatch (e : JSError) : ApiError :=
  if e.isDOMException && e.name == "AbortError" then
    { type := .network, message := "Request was cancelled", originalError := some e }
  else classifyError e

/-- The `ApiClient.buildUrl`, on the character sequences of the base URL and
path: drop one trailing `'/'` from the base if present, ensure the path
starts with `'/'`, concatenate. -/
def buildUrl (baseUrl path : List Char) : List Char :=
  let base := if baseUrl.getLast? == some '/' then baseUrl.dropLast else baseUrl
  let normalizedPath := if path.head? == some '/' then path else '/' :: path
  base ++ normalizedPath

/-- Spec-side normal form for C8 ("exactly one slash between base and
path"): all trailing slashes of the base removed, a single slash, all
leading slashes of the path removed. -/
def stripTrailingSlashes (l : List Char) : List Char :=
  (l.reverse.dropWhile (· == '/')).reverse

/-- Leading-slash stripper for the spec-side normal form of C8. -/
def stripLeadingSlashes (l : List Char) : List Char :=
  l.dropWhile (· == '/')

/-- Spec-side join with exactly one slash at the junction. -/
def oneSlashJoin (baseUrl path : List Char) : List Char :=
  stripTrailingSlashes baseUrl ++ '/' :: stripLeadingSlashes path

/-! ## Health check (`src/services/api/healthApi.ts`) -/

/-- Outcome of the `fetch` inside `healthApi.check`: either a settled
response (with its `ok` flag and whether its body parses as JSON), or a
thrown value (network failure, abort from either signal, ...). -/
inductive FetchOutcome where
  | resp (ok : Bool) (bodyJsonParses : Bool)
  | thrown (e : JSError)

/-- The `healthApi.check` as a function of the fetch outcome: `false` on a
non-ok status, `true` on an ok status (JSON body-parse failures are
swallowed), `false` on anything thrown. -/
def healthCheck : FetchOutcome → Bool
  | .resp ok _bodyJsonParses => if !ok then false else true
  | .thrown _ => false

/-! ## Untyped payloads (`src/utils/validation.ts`) -/

/-- JavaScript whitespace: the WhiteSpace and LineTerminator characters
(the set used both by `String.prototype.trim` and by regex `\s`). -/
def isJsSpace (c : Char) : Bool :=
  c == ' ' || c == '\t' || c == '\n' || c == '\r' ||
  c.val == 11 || c.val == 12 || c.val == 0xa0 || c.val == 0x1680 ||
  (0x2000 ≤ c.val && c.val ≤ 0x200a) || c.val == 0x2028 || c.val == 0x2029 ||
  c.val == 0x202f || c.val == 0x205f || c.val == 0x3000 || c.val == 0xfeff

/-- JavaScript `s.trim()` on the character sequence: strip leading and
trailing whitespace. -/
def jsTrim (l : List Char) : List Char :=
  ((l.dropWhile isJsSpace).reverse.dropWhile isJsSpace).reverse

/-- An untyped JavaScript value as the validators inspect it: strings,
numbers, booleans, `null`, `undefined`, arrays and plain objects (an
object is its ordered field list; property access on a missing key
yields `undefined`). -/
inductive JsonValue where
  | str (s : String)
  | num (n : Int)
  | bool (b : Bool)
  | null
  | undefined
  | arr (elems : List JsonValue)
  | obj (fields : List (String × JsonValue))

/-- First-match field lookup in an object's field list; `undefined` when
the key is absent. -/
def getField : List (String × JsonValue) → String → JsonValue
  | [], _ => .undefined
  | (k', v) :: rest, k => if k' = k then v else getField rest k

/-- JavaScript property access `v[k]`: field lookup on objects,
`undefined` otherwise (the validators only read properties of values
they have checked to be objects, or rely on `undefined` for the rest). -/
def jsGet (v : JsonValue) (k : String) : JsonValue :=
  match v with
  | .obj fs => getField fs k
  | _ => .undefined

/-- Property update `{...r, k: v}`: overwrite in place if the key
exists, else append. -/
def setField : List (String × JsonValue) → String → JsonValue → List (String × JsonValue)
  | [], k, v => [(k, v)]
  | (k', w) :: rest, k, v =>
    if k' = k then (k, v) :: rest else (k', w) :: setField rest k v

/-- The `value === undefined`. -/
def isUndef : JsonValue → Bool
  | .undefined => true
  | _ => false

/-- The `typeof value === 'string'`. -/
def isStringV : JsonValue → Bool
  | .str _ => true
  | _ => false

/-- The `isNonEmptyString` from `src/utils/validation.ts`:
`typeof value === 'string' && value.trim().length > 0`. -/
def isNonEmptyStringV : JsonValue → Bool
  | .str s => decide (0 < (jsTrim s.toList).length)
  | _ => false

/-- The `isObject` from `src/utils/validation.ts`: a non-null, non-array
object. -/
def isObjectV : JsonValue → Bool
  | .obj _ => true
  | _ => false

/-- The `isArray`. -/
def isArrayV : JsonValue → Bool
  | .arr _ => true
  | _ => false

/-- The element list of an array value (only consulted after an
`isArray` check). -/
def arrElems : JsonValue → List JsonValue
  | .arr xs => xs
  | _ => []

/-- The `xs.every(item => typeof item === 'string')`. -/
def allStrings (v : JsonValue) : Bool :=
  (arrElems v).all isStringV

/-- JavaScript truthiness, as used by `r._id || r.id || ''`. -/
def truthy : JsonValue → Bool
  | .str s => s ≠ ""
  | .num n => n ≠ 0
  | .bool b => b
  | .null => false
  | .undefined => false
  | .arr _ => true
  | .obj _ => true

/-- The `ValidationResult` from `src/utils/validation.ts`. -/
structure ValidationResult where
  valid : Bool
  errors : List String
deriving Repr

/-- The `createValidationError` from `src/utils/validation.ts`. -/
def createValidationError (message : String) : ApiError :=
  { type := .validation, message := message }

/-- The `errors.join('; ')`. -/
def joinSemi (errors : List String) : String :=
  String.intercalate "; " errors

/-- The `validateBasicInfo` from `src/utils/validation.ts`. -/
def validateBasicInfo (basicInfo : JsonValue) : ValidationResult :=
  if !(isObjectV basicInfo) then
    { valid := false, errors := ["basic_info must be an object"] }
  else
    let errors :=
      (if !(isNonEmptyStringV (jsGet basicInfo "name")) then
        ["basic_info.name is required and must be a non-empty string"] else [])
      ++ (if !(isNonEmptyStringV (jsGet basicInfo "address")) then
        ["basic_info.address is required and must be a non-empty string"] else [])
      ++ (if !(isNonEmptyStringV (jsGet basicInfo "email")) then
        ["basic_info.email is required and must be a non-empty string"] else [])
      ++ (let phone := jsGet basicInfo "phone"
          if !(isStringV phone) && !(phone matches .num _) then
            ["basic_info.phone is required and must be a string or number"] else [])
      ++ (if !(isNonEmptyStringV (jsGet basicInfo "linkedin")) then
        ["basic_info.linkedin is required and must be a non-empty string"] else [])
      ++ (if !(isNonEmptyStringV (jsGet basicInfo "github")) then
        ["basic_info.github is required and must be a non-empty string"] else [])
      ++ (let homepage := jsGet basicInfo "homepage"
          if !(isUndef homepage) && !(isStringV homepage) then
            ["basic_info.homepage must be a string if provided"] else [])
      ++ (let summary := jsGet basicInfo "summary"
          if !(isUndef summary) && !(isStringV summary) then
            ["basic_info.summary must be a string if provided"] else [])
    { valid := errors.length == 0, errors := errors }

/-- The `validateEducation` from `src/utils/validation.ts`. -/
def validateEducation (education : JsonValue) (index : Nat) : ValidationResult :=
  if !(isObjectV education) then
    { valid := false, errors := [s!"education[{index}] must be an object"] }
  else
    let errors :=
      (if !(isNonEmptyStringV (jsGet education "university")) then
        [s!"education[{index}].university is required and must be a non-empty string"] else [])
      ++ (if !(isNonEmptyStringV (jsGet education "degree")) then
        [s!"education[{index}].degree is required and must be a non-empty string"] else [])
      ++ (let duration := jsGet education "duration"
          if !(isUndef duration) && !(isStringV duration) then
            [s!"education[{index}].duration must be a string if provided"] else [])
      ++ (let location := jsGet education "location"
          if !(isUndef location) && !(isStringV location) then
            [s!"education[{index}].location must be a string if provided"] else [])
      ++ (let info := jsGet education "info"
          if isUndef info then []
          else if !(isArrayV info) then
            [s!"education[{index}].info must be an array if provided"]
          else if !(allStrings info) then
            [s!"education[{index}].info must contain only strings"]
          else [])
    { valid := errors.length == 0, errors := errors }

/-- The `validateProject` from `src/utils/validation.ts`. -/
def validateProject (project : JsonValue) (index : Nat) : ValidationResult :=
  if !(isObjectV project) then
    { valid := false, errors := [s!"projects[{index}] must be an object"] }
  else
    let errors :=
      (if !(isNonEmptyStringV (jsGet project "title")) then
        [s!"projects[{index}].title is required and must be a non-empty string"] else [])
      ++ (let repo := jsGet project "repo"
          if !(isUndef repo) && !(isStringV repo) then
            [s!"projects[{index}].repo must be a string if provided"] else [])
      ++ (let description := jsGet project "description"
          if isUndef description then []
          else if !(isArrayV description) then
            [s!"projects[{index}].description must be an array if provided"]
          else if !(allStrings description) then
            [s!"projects[{index}].description must contain only strings"]
          else [])
      ++ (let tools := jsGet project "tools"
          if isUndef tools then []
          else if !(isArrayV tools) then
            [s!"projects[{index}].tools must be an array if provided"]
          else if !(allStrings tools) then
            [s!"projects[{index}].tools must contain only strings"]
          else [])
    { valid := errors.length == 0, errors := errors }

/-- The `validateExperienceProject` from `src/utils/validation.ts`. -/
def validateExperienceProject (expProject : JsonValue) (expIndex projIndex : Nat) :
    ValidationResult :=
  if !(isObjectV expProject) then
    { valid := false,
      errors := [s!"experiences[{expIndex}].projects[{projIndex}] must be an object"] }
  else
    let errors :=
      (let title := jsGet expProject "title"
       if !(isUndef title) && !(isStringV title) then
         [s!"experiences[{expIndex}].projects[{projIndex}].title must be a string if provided"]
       else [])
      ++ (let details := jsGet expProject "details"
          if isUndef details then []
          else if !(isArrayV details) then
            [s!"experiences[{expIndex}].projects[{projIndex}].details must be an array if provided"]
          else if !(allStrings details) then
            [s!"experiences[{expIndex}].projects[{projIndex}].details must contain only strings"]
          else [])
      ++ (let tools := jsGet expProject "tools"
          if isUndef tools then []
          else if !(isArrayV tools) then
            [s!"experiences[{expIndex}].projects[{projIndex}].tools must be an array if provided"]
          else if !(allStrings tools) then
            [s!"experiences[{expIndex}].projects[{projIndex}].tools must contain only strings"]
          else [])
    { valid := errors.length == 0, errors := errors }

/-- Per-element accumulation of `exp.projects.forEach((proj, projIndex) => ...)`. -/
def expProjectsErrors (expIndex : Nat) : List JsonValue → Nat → List String
  | [], _ => []
  | p :: rest, projIndex =>
    (validateExperienceProject p expIndex projIndex).errors
      ++ expProjectsErrors expIndex rest (projIndex + 1)

/-- The `validateExperience` from `src/utils/validation.ts`. -/
def validateExperience (experience : JsonValue) (index : Nat) : ValidationResult :=
  if !(isObjectV experience) then
    { valid := false, errors := [s!"experiences[{index}] must be an object"] }
  else
    let errors :=
      (let company := jsGet experience "company"
       if !(isUndef company) && !(isStringV company) then
         [s!"experiences[{index}].company must be a string if provided"] else [])
      ++ (let duration := jsGet experience "duration"
          if !(isUndef duration) && !(isStringV duration) then
            [s!"experiences[{index}].duration must be a string if provided"] else [])
      ++ (let location := jsGet experience "location"
          if !(isUndef location) && !(isStringV location) then
            [s!"experiences[{index}].location must be a string if provided"] else [])
      ++ (let title := jsGet experience "title"
          if !(isUndef title) && !(isStringV title) then
            [s!"experiences[{index}].title must be a string if provided"] else [])
      ++ (let projects := jsGet experience "projects"
          if isUndef projects then []
          else if !(isArrayV projects) then
            [s!"experiences[{index}].projects must be an array if provided"]
          else expProjectsErrors index (arrElems projects) 0)
    { valid := errors.length == 0, errors := errors }

/-- Per-element accumulation of the `forEach` loops in
`validateResumeData` and `validateResumeResponse`, over a per-element
validator taking the element and its index. -/
def indexedErrors (f : JsonValue → Nat → ValidationResult) : List JsonValue → Nat → List String
  | [], _ => []
  | x :: rest, i => (f x i).errors ++ indexedErrors f rest (i + 1)

/-- The error accumulation of `validateResumeData` over an (object)
payload: required `name`, optional `keywords` / `basic_info` /
`education` / `projects` / `experiences`, in source order. -/
def resumeDataErrors (data : JsonValue) : List String :=
  (if !(isNonEmptyStringV (jsGet data "name")) then
    ["name is required and must be a non-empty string"] else [])
  ++ (let keywords := jsGet data "keywords"
      if isUndef keywords then []
      else if !(isArrayV keywords) then ["keywords must be an array if provided"]
      else if !(allStrings keywords) then ["keywords must contain only strings"]
      else [])
  ++ (let basicInfo := jsGet data "basic_info"
      if isUndef basicInfo then [] else (validateBasicInfo basicInfo).errors)
  ++ (let education := jsGet data "education"
      if isUndef education then []
      else if !(isArrayV education) then ["education must be an array if provided"]
      else indexedErrors validateEducation (arrElems education) 0)
  ++ (let projects := jsGet data "projects"
      if isUndef projects then []
      else if !(isArrayV projects) then ["projects must be an array if provided"]
      else indexedErrors validateProject (arrElems projects) 0)
  ++ (let experiences := jsGet data "experiences"
      if isUndef experiences then []
      else if !(isArrayV experiences) then ["experiences must be an array if provided"]
      else indexedErrors validateExperience (arrElems experiences) 0)

/-- The `validateResumeData` from `src/utils/validation.ts`: throws a
`validation` error for non-objects, otherwise accumulates all
violations and throws once, joined with `'; '`. -/
def validateResumeData (data : JsonValue) : Except ApiError Unit :=
  if !(isObjectV data) then
    .error (createValidationError "Resume data must be an object")
  else
    let errors := resumeDataErrors data
    if errors.length > 0 then
      .error (createValidationError ("Invalid resume data: " ++ joinSemi errors))
    else
      .ok ()

/-- The `validateTemplate` from `src/utils/validation.ts`. -/
def validateTemplate (template : JsonValue) (index : Nat) : ValidationResult :=
  if !(isObjectV template) then
    { valid := false, errors := [s!"templates[{index}] must be an object"] }
  else
    let errors :=
      (if !(isNonEmptyStringV (jsGet template "id")) then
        [s!"templates[{index}].id is required and must be a non-empty string"] else [])
      ++ (if !(isNonEmptyStringV (jsGet template "name")) then
        [s!"templates[{index}].name is required and must be a non-empty string"] else [])
    { valid := errors.length == 0, errors := errors }

/-- The `validateResumeResponse` from `src/utils/validation.ts`: an id under
`id` or `_id`, a `name`, and the same nested rules applied to the
optional sections. -/
def validateResumeResponse (resume : JsonValue) : ValidationResult :=
  if !(isObjectV resume) then
    { valid := false, errors := ["Response must be an object"] }
  else
    let errors :=
      (if !(isNonEmptyStringV (jsGet resume "id")) && !(isNonEmptyStringV (jsGet resume "_id")) then
        ["id or _id is required and must be a non-empty string"] else [])
      ++ (if !(isNonEmptyStringV (jsGet resume "name")) then
        ["name is required and must be a non-empty string"] else [])
      ++ (let basicInfo := jsGet resume "basic_info"
          if isUndef basicInfo then [] else (validateBasicInfo basicInfo).errors)
      ++ (let education := jsGet resume "education"
          if isUndef education then []
          else if !(isArrayV education) then ["education must be an array if provided"]
          else indexedErrors validateEducation (arrElems education) 0)
      ++ (let projects := jsGet resume "projects"
          if isUndef projects then []
          else if !(isArrayV projects) then ["projects must be an array if provided"]
          else indexedErrors validateProject (arrElems projects) 0)
      ++ (let experiences := jsGet resume "experiences"
          if isUndef experiences then []
          else if !(isArrayV experiences) then ["experiences must be an array if provided"]
          else indexedErrors validateExperience (arrElems experiences) 0)
    { valid := errors.length == 0, errors := errors }

/-- The `ResponseSchema` from `src/utils/validation.ts`. -/
inductive ResponseSchema where
  | resume
  | resumeArray
  | createResume
  | copyResume
  | templates
deriving DecidableEq, Repr

/-- The `resumeArray` loop of `validateApiResponse`: one accumulated
message per invalid element, carrying the element index. -/
def resumeArrayErrors : List JsonValue → Nat → List String
  | [], _ => []
  | r :: rest, index =>
    let result := validateResumeResponse r
    (if !result.valid then
      [s!"Resume at index {index}: " ++ joinSemi result.errors] else [])
      ++ resumeArrayErrors rest (index + 1)

/-- The `validateApiResponse` from `src/utils/validation.ts`.  (The
`default` branch of the source's `switch` is unreachable here because
`ResponseSchema` is closed.) -/
def validateApiResponse (response : JsonValue) (schema : ResponseSchema) :
    Except ApiError Unit :=
  match schema with
  | .resume =>
    let result := validateResumeResponse response
    if result.errors.length > 0 then
      .error (createValidationError ("Invalid API response: " ++ joinSemi result.errors))
    else .ok ()
  | .resumeArray =>
    if !(isArrayV response) then
      .error (createValidationError "Expected array of resumes")
    else
      let errors := resumeArrayErrors (arrElems response) 0
      if errors.length > 0 then
        .error (createValidationError ("Invalid API response: " ++ joinSemi errors))
      else .ok ()
  | .createResume =>
    if !(isObjectV response) then
      .error (createValidationError "Expected object with id field")
    else
      let errors :=
        if !(isNonEmptyStringV (jsGet response "id")) then
          ["id is required and must be a non-empty string"] else []
      if errors.length > 0 then
        .error (createValidationError ("Invalid API response: " ++ joinSemi errors))
      else .ok ()
  | .copyResume =>
    if !(isObjectV response) then
      .error (createValidationError "Expected object with resume field")
    else
      let errors :=
        if !(isStringV (jsGet response "resume")) then
          ["resume field is required and must be a string"] else []
      if errors.length > 0 then
        .error (createValidationError ("Invalid API response: " ++ joinSemi errors))
      else .ok ()
  | .templates =>
    if !(isObjectV response) then
      .error (createValidationError "Expected object with templates array")
    else
      let ts := jsGet response "templates"
      let errors :=
        if !(isArrayV ts) then
          ["templates field is required and must be an array"]
        else indexedErrors validateTemplate (arrElems ts) 0
      if errors.length > 0 then
        .error (createValidationError ("Invalid API response: " ++ joinSemi errors))
      else .ok ()

/-! ## Resume API service (`src/services/api/resumeApi.ts`) -/

/-- The per-record rewrite in `resumeApi.getAll`:
`{...r, _id: r._id || r.id || ''}`.  Spreading a non-object primitive
contributes no own properties (the indexed-character spread of strings
is elided; it never affects validation outcomes). -/
def rewriteId (r : JsonValue) : JsonValue :=
  let newId :=
    if truthy (jsGet r "_id") then jsGet r "_id"
    else if truthy (jsGet r "id") then jsGet r "id"
    else .str ""
  match r with
  | .obj fs => .obj (setField fs "_id" newId)
  | _ => .obj [("_id", newId)]

/-- The `resumeApi.getAll` as a function of the parsed response body:
reads `response.data.data`, rewrites each record's `_id`, validates the
result as a `resumeArray`, and returns it.  `none` models the raw
`TypeError` thrown by `.map` when the body's `data` field is not an
array (outside the claims' scope). -/
def getAllBody (body : JsonValue) : Option (Except ApiError JsonValue) :=
  match jsGet body "data" with
  | .arr xs =>
    let resumes := xs.map rewriteId
    some (match validateApiResponse (.arr resumes) .resumeArray with
      | .error e => .error e
      | .ok _ => .ok (.arr resumes))
  | _ => none

/-- The `resumeApi.create` as a function of the outgoing payload and the
network's behaviour (`net` is the settled outcome of `client.post`: a
classified error or a parsed response body).  The second component
counts how many network calls were issued. -/
def createOp (net : Except ApiError JsonValue) (data : JsonValue) :
    Except ApiError JsonValue × Nat :=
  match validateResumeData data with
  | .error e => (.error e, 0)
  | .ok _ =>
    match net with
    | .error e => (.error e, 1)
    | .ok body =>
      match validateApiResponse body .createResume with
      | .error e => (.error e, 1)
      | .ok _ => (.ok body, 1)

/-- The `resumeApi.update` as a function of the outgoing payload and the
network's behaviour; the second component counts network calls. -/
def updateOp (net : Except ApiError JsonValue) (data : JsonValue) :
    Except ApiError Unit × Nat :=
  match validateResumeData data with
  | .error e => (.error e, 0)
  | .ok _ =>
    match net with
    | .error e => (.error e, 1)
    | .ok _ => (.ok (), 1)

/-! ## Technical-message patterns

The patterns the spec forbids in user-facing text, from the
user-friendly-message property: `/Error:/i`, `/Exception/i`, `/stack/i`,
`/at\s+\w+\s*\(/`, `/0x[0-9a-f]+/i`, `/undefined/i`, `/null/i`,
`/NaN/i`, `/\[object\s+\w+\]/`. -/

/-- The character sequence of `s` lowercased, for the `/i`-flagged
patterns (JavaScript `toLowerCase` on the ASCII text involved agrees
with `Char.toLower`). -/
def lowerChars (s : String) : List Char := s.toList.map Char.toLower

/-- Case-insensitive containment of a (lowercase) literal pattern. -/
def ContainsCI (pat s : String) : Prop := pat.toList <:+: lowerChars s

instance (pat s : String) : Decidable (ContainsCI pat s) :=
  List.decidableInfix pat.toList (lowerChars s)

/-- JavaScript regex `\w`: `[A-Za-z0-9_]`. -/
def isWordChar (c : Char) : Bool :=
  ('A' ≤ c && c ≤ 'Z') || ('a' ≤ c && c ≤ 'z') || c.isDigit || c == '_'

/-- A match of `/at\s+\w+\s*\(/` occurs somewhere in `s`. -/
def AtFrame (s : String) : Prop :=
  ∃ sp wd sp₂, sp ≠ [] ∧ sp.all isJsSpace = true ∧ wd ≠ [] ∧ wd.all isWordChar = true ∧
    sp₂.all isJsSpace = true ∧
    ('a' :: 't' :: (sp ++ wd ++ sp₂ ++ ['('])) <:+: s.toList

/-- A match of `/0x[0-9a-f]+/i` occurs somewhere in `s` (one hex digit
after the prefix suffices to witness the `+`). -/
def HasHexToken (s : String) : Prop :=
  ∃ d, (d.isDigit || ('a' ≤ d && d ≤ 'f')) = true ∧ ['0', 'x', d] <:+: lowerChars s

/-- A match of `/\[object\s+\w+\]/` occurs somewhere in `s`. -/
def ObjArtifact (s : String) : Prop :=
  ∃ sp wd, sp ≠ [] ∧ sp.all isJsSpace = true ∧ wd ≠ [] ∧ wd.all isWordChar = true ∧
    ('[' :: ("object".toList ++ sp ++ wd ++ [']'])) <:+: s.toList

/-- Holds when `s` matches at least one of the nine technical patterns; a string is
a "technical message" exactly when this holds. -/
def TechnicalPattern (s : String) : Prop :=
  ContainsCI "error:" s ∨ ContainsCI "exception" s ∨ ContainsCI "stack" s ∨
  AtFrame s ∨ HasHexToken s ∨ ContainsCI "undefined" s ∨ ContainsCI "null" s ∨
  ContainsCI "nan" s ∨ ObjArtifact s

/-- The `s[0] === s[0].toUpperCase()` on a nonempty string: the first
character is unchanged by uppercasing. -/
def startsCapital (s : String) : Bool :=
  match s.toList with
  | [] => false
  | c :: _ => c.toUpper == c

/-- The string ends with `.`, `!` or `?` (the `/[.!?]$/` test). -/
def endsTerminal (s : String) : Bool :=
  match s.toList.getLast? with
  | some c => c == '.' || c == '!' || c == '?'
  | none => false

/-! ## General lemmas about substrings -/

theorem substr_refl (s : String) : Substr s s := ⟨[], [], by simp⟩

theorem substr_trans {a b c : String} (h₁ : Substr a b) (h₂ : Substr b c) : Substr a c :=
  List.IsInfix.trans h₁ h₂

theorem substr_append_left {pat : String} (s t : String) (h : Substr pat s) :
    Substr pat (s ++ t) := by
  obtain ⟨u, v, huv⟩ := h
  have huv' : u ++ pat.data ++ v = s.data := huv
  refine ⟨u, v ++ t.data, ?_⟩
  show u ++ pat.data ++ (v ++ t.data) = (s ++ t).data
  rw [String.data_append, ← huv']
  simp

theorem substr_append_right {pat : String} (s t : String) (h : Substr pat t) :
    Substr pat (s ++ t) := by
  obtain ⟨u, v, huv⟩ := h
  have huv' : u ++ pat.data ++ v = t.data := huv
  refine ⟨s.data ++ u, v, ?_⟩
  show s.data ++ u ++ pat.data ++ v = (s ++ t).data
  rw [String.data_append, ← huv']
  simp

theorem substr_go {sep e : String} :
    ∀ (as : List String) (acc : String), Substr e acc ∨ e ∈ as →
      Substr e (String.intercalate.go acc sep as)
  | [], acc, h => by
    rcases h with h | h
    · exact h
    · cases h
  | a :: as, acc, h => by
    have step : Substr e (acc ++ sep ++ a) ∨ e ∈ as := by
      rcases h with h | h
      · exact Or.inl (substr_append_left _ _ (substr_append_left _ _ h))
      · rcases List.mem_cons.mp h with rfl | h
        · exact Or.inl (substr_append_right _ _ (substr_refl e))
        · exact Or.inr h
    exact substr_go as (acc ++ sep ++ a) step

/-- Every element of a joined error list occurs inside the joined
string. -/
theorem substr_joinSemi {e : String} {l : List String} (h : e ∈ l) :
    Substr e (joinSemi l) := by
  cases l with
  | nil => cases h
  | cons a as =>
    show Substr e (String.intercalate.go a "; " as)
    rcases List.mem_cons.mp h with heq | h
    · refine substr_go as a (Or.inl ?_)
      rw [heq]
      exact substr_refl a
    · exact substr_go as a (Or.inr h)

/-! ## C1: status-code classification -/

/-- C1: every status code in 500–599 classifies as a `server` error
carrying that code, and every code in 400–499 as a `validation` error
carrying that code, both for `Response` objects and for plain objects
with a numeric `status` property. -/
theorem classifyError_status_codes (s : Int) (h4 : 400 ≤ s) (h6 : s ≤ 599) :
    (500 ≤ s →
      classifyError (mkResponse s)
          = { type := .server, message := "Server error occurred", statusCode := some s } ∧
      classifyError (mkStatusObject s)
          = { type := .server, message := "Server error occurred", statusCode := some s }) ∧
    (s < 500 →
      classifyError (mkResponse s)
          = { type := .validation, message := "Invalid request", statusCode := some s } ∧
      classifyError (mkStatusObject s)
          = { type := .validation, message := "Invalid request", statusCode := some s }) := by
  constructor
  · intro h5
    constructor <;> simp [classifyError, mkResponse, mkStatusObject, statusGe, h5]
  · intro h5
    have hn : ¬ (500 ≤ s) := by omega
    constructor <;> simp [classifyError, mkResponse, mkStatusObject, statusGe, hn, h4]

/-- C1 witness: the classification at statuses 503 and 404. -/
theorem classifyError_status_codes_witness :
    (400 ≤ (503 : Int) ∧ (503 : Int) ≤ 599 ∧ 500 ≤ (503 : Int) ∧
      (classifyError (mkResponse 503)).type = .server ∧
      (classifyError (mkStatusObject 503)).statusCode = some 503) ∧
    (400 ≤ (404 : Int) ∧ (404 : Int) ≤ 599 ∧ (404 : Int) < 500 ∧
      (classifyError (mkResponse 404)).type = .validation ∧
      (classifyError (mkStatusObject 404)).statusCode = some 404) := by
  have h503 := (classifyError_status_codes 503 (by norm_num) (by norm_num)).1 (by norm_num)
  have h404 := (classifyError_status_codes 404 (by norm_num) (by norm_num)).2 (by norm_num)
  refine ⟨⟨by norm_num, by norm_num, by norm_num, ?_, ?_⟩,
    by norm_num, by norm_num, by norm_num, ?_, ?_⟩
  · rw [h503.1]
  · rw [h503.2]
  · rw [h404.1]
  · rw [h404.2]

/-! ## C2: retry delay -/

/-- C2 (amended): the delay is exactly
`min(base * 2^max(0, attempt), max)`, non-decreasing in the attempt,
capped at the policy maximum, and `delay(0) = base` whenever the base
delay does not exceed the maximum delay. -/
theorem calculateRetryDelay_spec (config : RetryConfig) (n : Int) :
    calculateRetryDelay n config
        = min (config.baseDelayMs * 2 ^ (max 0 n).toNat) config.maxDelayMs ∧
    calculateRetryDelay n config ≤ calculateRetryDelay (n + 1) config ∧
    calculateRetryDelay n config ≤ config.maxDelayMs ∧
    (config.baseDelayMs ≤ config.maxDelayMs →
      calculateRetryDelay 0 config = config.baseDelayMs) := by
  refine ⟨rfl, ?_, ?_, ?_⟩
  · unfold calculateRetryDelay
    have hexp : (max 0 n).toNat ≤ (max 0 (n + 1)).toNat := by omega
    have hpow : (2 : Nat) ^ (max 0 n).toNat ≤ 2 ^ (max 0 (n + 1)).toNat :=
      Nat.pow_le_pow_right (by norm_num) hexp
    have hmul : config.baseDelayMs * 2 ^ (max 0 n).toNat
        ≤ config.baseDelayMs * 2 ^ (max 0 (n + 1)).toNat :=
      Nat.mul_le_mul_left _ hpow
    exact min_le_min hmul (le_refl _)
  · exact Nat.min_le_right _ _
  · intro h
    have h0 : calculateRetryDelay 0 config = min config.baseDelayMs config.maxDelayMs := by
      simp [calculateRetryDelay]
    rw [h0]
    exact min_eq_left h

/-- C2 witness: the amended claim at the default retry policy. -/
theorem calculateRetryDelay_spec_witness :
    ({ maxAttempts := 3, baseDelayMs := 1000, maxDelayMs := 30000 } : RetryConfig).baseDelayMs
        ≤ ({ maxAttempts := 3, baseDelayMs := 1000, maxDelayMs := 30000 } : RetryConfig).maxDelayMs ∧
    calculateRetryDelay 0 { maxAttempts := 3, baseDelayMs := 1000, maxDelayMs := 30000 } = 1000 :=
  ⟨by norm_num,
   (calculateRetryDelay_spec { maxAttempts := 3, baseDelayMs := 1000, maxDelayMs := 30000 } 0).2.2.2
     (by norm_num)⟩

/-- C2 counterexample: for a policy whose base delay exceeds its maximum
delay, `delay(0)` is the maximum, not the base, so the unconditional
`delay(0) == policy.base` clause of the claim fails. -/
theorem calculateRetryDelay_base_gt_max_cex :
    calculateRetryDelay 0 { maxAttempts := 3, baseDelayMs := 100, maxDelayMs := 50 } = 50 ∧
    ¬ (calculateRetryDelay 0 { maxAttempts := 3, baseDelayMs := 100, maxDelayMs := 50 }
        = ({ maxAttempts := 3, baseDelayMs := 100, maxDelayMs := 50 } : RetryConfig).baseDelayMs) := by
  constructor <;> decide

/-! ## C5: aborts are indistinguishable -/

/-- C5: an abort of an in-flight request is surfaced as a
`network`-kind error with message "Request was cancelled", and the
result is identical whether the timeout signal or the caller's signal
fired. -/
theorem requestCatch_abort (src : AbortSource) :
    requestCatch (abortException src)
        = { type := .network, message := "Request was cancelled",
            originalError := some (abortException src) } ∧
    requestCatch (abortException .timeoutSignal)
        = requestCatch (abortException .callerSignal) :=
  ⟨rfl, rfl⟩

/-! ## C9: health check totality -/

/-- C9: `healthApi.check` always returns a boolean — `true` exactly for
a settled response with `ok` set (whether or not its body parses as
JSON), `false` for non-ok statuses and for every thrown failure. -/
theorem healthCheck_total_boolean (o : FetchOutcome) :
    healthCheck o = true ↔ ∃ bodyJsonParses, o = .resp true bodyJsonParses := by
  cases o with
  | resp ok j => cases ok <;> simp [healthCheck]
  | thrown e => simp [healthCheck]

/-- C9 witness: concrete outcomes on both sides of the equivalence. -/
theorem healthCheck_total_boolean_witness :
    healthCheck (.resp true true) = true ∧
    healthCheck (.resp false true) = false ∧
    healthCheck (.thrown (abortException .callerSignal)) = false :=
  ⟨(healthCheck_total_boolean (.resp true true)).mpr ⟨true, rfl⟩, rfl, rfl⟩

/-! ## C6: config resolver -/

/-- C6: an absent or empty external value yields the default with
exactly one warning that names the config and says "missing"; a present
value whose parse is `undefined` or `NaN` yields the default with one
warning naming the config, the raw value and the default; otherwise the
present (or parsed) value is returned unchanged with zero warnings.
The resolver is a total function, so no exception is ever thrown. -/
theorem getConfigValue_spec (env : Option String) (dflt : CVal) (name : String)
    (parserFn : Option (String → CVal)) :
    ((env = none ∨ env = some "") →
      getConfigValue env dflt name parserFn
          = (dflt, ["Configuration \"" ++ name ++ "\" is missing. Using default value: "
              ++ cvalToString dflt]) ∧
      Substr name ("Configuration \"" ++ name ++ "\" is missing. Using default value: "
          ++ cvalToString dflt) ∧
      Substr "missing" ("Configuration \"" ++ name ++ "\" is missing. Using default value: "
          ++ cvalToString dflt)) ∧
    (∀ s p, env = some s → s ≠ "" → parserFn = some p → isInvalidParse (p s) = true →
      getConfigValue env dflt name parserFn
          = (dflt, ["Configuration \"" ++ name ++ "\" has invalid value \"" ++ s
              ++ "\". Using default value: " ++ cvalToString dflt]) ∧
      Substr name ("Configuration \"" ++ name ++ "\" has invalid value \"" ++ s
          ++ "\". Using default value: " ++ cvalToString dflt) ∧
      Substr s ("Configuration \"" ++ name ++ "\" has invalid value \"" ++ s
          ++ "\". Using default value: " ++ cvalToString dflt) ∧
      Substr (cvalToString dflt) ("Configuration \"" ++ name ++ "\" has invalid value \"" ++ s
          ++ "\". Using default value: " ++ cvalToString dflt)) ∧
    (∀ s p, env = some s → s ≠ "" → parserFn = some p → isInvalidParse (p s) = false →
      getConfigValue env dflt name parserFn = (p s, [])) ∧
    (∀ s, env = some s → s ≠ "" → parserFn = none →
      getConfigValue env dflt name parserFn = (.vStr s, [])) := by
  refine ⟨?_, ?_, ?_, ?_⟩
  · intro h
    refine ⟨?_, ?_, ?_⟩
    · rcases h with h | h <;> subst h <;> simp [getConfigValue]
    · exact substr_append_left _ _
        (substr_append_left _ _ (substr_append_right _ _ (substr_refl name)))
    · refine substr_append_left _ _ (substr_append_right _ _ ?_)
      decide
  · intro s p hs hne hp hinv
    subst hs
    subst hp
    refine ⟨?_, ?_, ?_, ?_⟩
    · simp [getConfigValue, hne, hinv]
    · exact substr_append_left _ _ (substr_append_left _ _ (substr_append_left _ _
        (substr_append_left _ _ (substr_append_right _ _ (substr_refl name)))))
    · exact substr_append_left _ _ (substr_append_left _ _
        (substr_append_right _ _ (substr_refl s)))
    · exact substr_append_right _ _ (substr_refl (cvalToString dflt))
  · intro s p hs hne hp hval
    subst hs
    subst hp
    simp [getConfigValue, hne, hval]
  · intro s hs hne hp
    subst hs
    subst hp
    simp [getConfigValue, hne]

/-- C6 witness: the resolver at a concrete missing value, a concrete
invalid parse, and a concrete present value. -/
theorem getConfigValue_spec_witness :
    getConfigValue none (.vNum 30000) "REACT_APP_REQUEST_TIMEOUT" none
        = (.vNum 30000,
           ["Configuration \"" ++ "REACT_APP_REQUEST_TIMEOUT"
              ++ "\" is missing. Using default value: " ++ cvalToString (.vNum 30000)]) ∧
    getConfigValue (some "abc") (.vNum 5000) "REACT_APP_CONNECTION_TIMEOUT"
        (some fun _ => .vNaN)
        = (.vNum 5000,
           ["Configuration \"" ++ "REACT_APP_CONNECTION_TIMEOUT"
              ++ "\" has invalid value \"" ++ "abc"
              ++ "\". Using default value: " ++ cvalToString (.vNum 5000)]) ∧
    getConfigValue (some "http://localhost:8000") (.vStr "http://localhost:8000")
        "REACT_APP_API_BASE_URL" none
        = (.vStr "http://localhost:8000", []) :=
  ⟨((getConfigValue_spec none (.vNum 30000) "REACT_APP_REQUEST_TIMEOUT" none).1
      (Or.inl rfl)).1,
   ((getConfigValue_spec (some "abc") (.vNum 5000) "REACT_APP_CONNECTION_TIMEOUT"
      (some fun _ => .vNaN)).2.1 "abc" (fun _ => .vNaN) rfl (by decide) rfl rfl).1,
   (getConfigValue_spec (some "http://localhost:8000") (.vStr "http://localhost:8000")
      "REACT_APP_API_BASE_URL" none).2.2.2 "http://localhost:8000" rfl (by decide) rfl⟩

/-! ## C3: accumulated validation of outgoing payloads -/

/-- C3: for object payloads, `validateResumeData` accumulates every
rule violation of the pass and throws a single `validation` error whose
message contains every violated field's error text; in particular, a
payload without a non-empty (after trim) string `name` produces a
`validation` error whose message contains "name". -/
theorem validateResumeData_accumulates (d : JsonValue) (hobj : isObjectV d = true) :
    (resumeDataErrors d ≠ [] →
      validateResumeData d
          = .error (createValidationError
              ("Invalid resume data: " ++ joinSemi (resumeDataErrors d))) ∧
      ∀ e ∈ resumeDataErrors d,
        Substr e ("Invalid resume data: " ++ joinSemi (resumeDataErrors d))) ∧
    (isNonEmptyStringV (jsGet d "name") = false →
      ∃ msg, validateResumeData d = .error { type := .validation, message := msg } ∧
        Substr "name" msg) := by
  have key : resumeDataErrors d ≠ [] →
      validateResumeData d
        = .error (createValidationError
            ("Invalid resume data: " ++ joinSemi (resumeDataErrors d))) := by
    intro hne
    have hlen : 0 < (resumeDataErrors d).length := List.length_pos.mpr hne
    simp [validateResumeData, hobj, hlen]
  refine ⟨fun hne => ⟨key hne, fun e he => substr_append_right _ _ (substr_joinSemi he)⟩, ?_⟩
  intro hname
  have hmem : "name is required and must be a non-empty string" ∈ resumeDataErrors d := by
    simp [resumeDataErrors, hname]
  have hne : resumeDataErrors d ≠ [] := by
    intro h0
    rw [h0] at hmem
    cases hmem
  refine ⟨"Invalid resume data: " ++ joinSemi (resumeDataErrors d), key hne, ?_⟩
  have h1 : Substr "name" "name is required and must be a non-empty string" := by decide
  exact substr_trans h1 (substr_append_right _ _ (substr_joinSemi hmem))

/-- C3 witness: the empty object payload. -/
theorem validateResumeData_accumulates_witness :
    isObjectV (.obj []) = true ∧
    resumeDataErrors (.obj []) ≠ [] ∧
    validateResumeData (.obj [])
        = .error (createValidationError
            ("Invalid resume data: " ++ joinSemi (resumeDataErrors (.obj [])))) :=
  ⟨rfl, by decide,
   ((validateResumeData_accumulates (.obj []) rfl).1 (by decide)).1⟩

/-! ## C4: validation before network -/

/-- C4: whenever outgoing validation fails, `resumeApi.create` and
`resumeApi.update` surface that `validation`-kind error with zero
network calls issued, for every possible network behaviour. -/
theorem create_update_validate_before_network (data : JsonValue) (e : ApiError)
    (h : validateResumeData data = .error e) :
    (∀ net, createOp net data = (.error e, 0)) ∧
    (∀ net, updateOp net data = (.error e, 0)) ∧
    e.type = .validation := by
  refine ⟨fun net => by simp [createOp, h], fun net => by simp [updateOp, h], ?_⟩
  simp only [validateResumeData] at h
  by_cases hobj : isObjectV data = true
  · rw [hobj] at h
    simp only [Bool.not_true, Bool.false_eq_true, if_false] at h
    by_cases hlen : 0 < (resumeDataErrors data).length
    · rw [if_pos hlen] at h
      have := (Except.error.injEq _ _).mp h
      rw [← this]
      rfl
    · rw [if_neg hlen] at h
      cases h
  · rw [Bool.not_eq_true] at hobj
    rw [hobj] at h
    simp only [Bool.not_false, if_true] at h
    have := (Except.error.injEq _ _).mp h
    rw [← this]
    rfl

/-- C4 witness: creating with the empty object fails validation and
issues no network call, whatever the network would have answered. -/
theorem create_update_validate_witness :
    validateResumeData (.obj [])
        = .error (createValidationError
            "Invalid resume data: name is required and must be a non-empty string") ∧
    createOp (.ok (.obj [("id", .str "abc")])) (.obj [])
        = (.error (createValidationError
            "Invalid resume data: name is required and must be a non-empty string"), 0) ∧
    updateOp (.ok (.obj [])) (.obj [])
        = (.error (createValidationError
            "Invalid resume data: name is required and must be a non-empty string"), 0) := by
  have h : validateResumeData (.obj [])
      = .error (createValidationError
          "Invalid resume data: name is required and must be a non-empty string") := rfl
  have hc := create_update_validate_before_network (.obj []) _ h
  exact ⟨h, hc.1 _, hc.2.1 _⟩

/-! ## C7: user-friendly messages -/

theorem atFrame_paren {s : String} (h : AtFrame s) : '(' ∈ s.toList := by
  obtain ⟨sp, wd, sp₂, _, _, _, _, _, hinf⟩ := h
  have hmem : '(' ∈ ('a' :: 't' :: (sp ++ wd ++ sp₂ ++ ['('])) := by simp
  exact hinf.sublist.subset hmem

theorem hasHex_zero {s : String} (h : HasHexToken s) : '0' ∈ lowerChars s := by
  obtain ⟨d, _, hinf⟩ := h
  have hmem : '0' ∈ ['0', 'x', d] := by simp
  exact hinf.sublist.subset hmem

theorem objArtifact_bracket {s : String} (h : ObjArtifact s) : '[' ∈ s.toList := by
  obtain ⟨sp, wd, _, _, _, _, hinf⟩ := h
  have hmem : '[' ∈ ('[' :: ("object".toList ++ sp ++ wd ++ [']'])) := by simp
  exact hinf.sublist.subset hmem

/-- Each technical pattern is preserved by string extension: a match
inside a substring is a match inside the whole string. -/
theorem technical_mono {s₁ s₂ : String} (hsub : Substr s₁ s₂)
    (h : TechnicalPattern s₁) : TechnicalPattern s₂ := by
  have hlow : lowerChars s₁ <:+: lowerChars s₂ := List.IsInfix.map Char.toLower hsub
  rcases h with h | h | h | h | h | h | h | h | h
  · exact Or.inl (h.trans hlow)
  · exact Or.inr (Or.inl (h.trans hlow))
  · exact Or.inr (Or.inr (Or.inl (h.trans hlow)))
  · obtain ⟨sp, wd, sp₂, h1, h2, h3, h4, h5, hinf⟩ := h
    exact Or.inr (Or.inr (Or.inr (Or.inl ⟨sp, wd, sp₂, h1, h2, h3, h4, h5, hinf.trans hsub⟩)))
  · obtain ⟨d, hd, hinf⟩ := h
    exact Or.inr (Or.inr (Or.inr (Or.inr (Or.inl ⟨d, hd, hinf.trans hlow⟩))))
  · exact Or.inr (Or.inr (Or.inr (Or.inr (Or.inr (Or.inl (h.trans hlow))))))
  · exact Or.inr (Or.inr (Or.inr (Or.inr (Or.inr (Or.inr (Or.inl (h.trans hlow)))))))
  · exact Or.inr (Or.inr (Or.inr (Or.inr (Or.inr (Or.inr (Or.inr (Or.inl (h.trans hlow))))))))
  · obtain ⟨sp, wd, h1, h2, h3, h4, hinf⟩ := h
    exact Or.inr (Or.inr (Or.inr (Or.inr (Or.inr (Or.inr (Or.inr (Or.inr
      ⟨sp, wd, h1, h2, h3, h4, hinf.trans hsub⟩)))))))

/-- A string avoiding the literal patterns and the key characters of
the positional patterns matches no technical pattern. -/
theorem not_technical_of (s : String)
    (he : ¬ ContainsCI "error:" s) (hex : ¬ ContainsCI "exception" s)
    (hst : ¬ ContainsCI "stack" s) (hp : '(' ∉ s.toList) (hz : '0' ∉ lowerChars s)
    (hu : ¬ ContainsCI "undefined" s) (hn : ¬ ContainsCI "null" s)
    (hna : ¬ ContainsCI "nan" s) (hb : '[' ∉ s.toList) :
    ¬ TechnicalPattern s := by
  intro h
  rcases h with h | h | h | h | h | h | h | h | h
  exacts [he h, hex h, hst h, hp (atFrame_paren h), hz (hasHex_zero h),
    hu h, hn h, hna h, hb (objArtifact_bracket h)]

/-- C7: for every classified error, the user-facing message depends
only on the error kind, starts with a capital letter, ends in terminal
punctuation, matches no technical pattern, and contains no technical
message (a string matching a technical pattern) verbatim. -/
theorem createUserFriendlyMessage_spec (e : ApiError) :
    startsCapital (createUserFriendlyMessage e) = true ∧
    endsTerminal (createUserFriendlyMessage e) = true ∧
    ¬ TechnicalPattern (createUserFriendlyMessage e) ∧
    (∀ e', e'.type = e.type → createUserFriendlyMessage e' = createUserFriendlyMessage e) ∧
    (∀ orig, TechnicalPattern orig → ¬ Substr orig (createUserFriendlyMessage e)) := by
  have hfix : ∀ e', e'.type = e.type →
      createUserFriendlyMessage e' = createUserFriendlyMessage e := by
    intro e' ht
    unfold createUserFriendlyMessage
    rw [ht]
  have hnt : ¬ TechnicalPattern (createUserFriendlyMessage e) := by
    rcases e with ⟨t, m, o, sc⟩
    cases t <;> refine not_technical_of _ ?_ ?_ ?_ ?_ ?_ ?_ ?_ ?_ ?_ <;>
      simp only [createUserFriendlyMessage] <;> decide
  refine ⟨?_, ?_, hnt, hfix, fun orig ht hsub => hnt (technical_mono hsub ht)⟩
  · rcases e with ⟨t, m, o, sc⟩
    cases t <;> simp only [createUserFriendlyMessage] <;> decide
  · rcases e with ⟨t, m, o, sc⟩
    cases t <;> simp only [createUserFriendlyMessage] <;> decide

/-- C7 witness: a concrete technical message is matched by the pattern
set and does not occur in the user-facing network message. -/
theorem createUserFriendlyMessage_spec_witness :
    TechnicalPattern "TypeError: Cannot read property" ∧
    ¬ Substr "TypeError: Cannot read property"
        (createUserFriendlyMessage
          { type := .network, message := "TypeError: Cannot read property" }) := by
  have ht : TechnicalPattern "TypeError: Cannot read property" := Or.inl (by decide)
  exact ⟨ht,
    (createUserFriendlyMessage_spec
      { type := .network, message := "TypeError: Cannot read property" }).2.2.2.2 _ ht⟩

/-! ## C10: id rewriting in `getAll` -/

theorem isUndef_eq {v : JsonValue} (h : isUndef v = true) : v = .undefined := by
  cases v <;> simp [isUndef] at h ⊢

theorem getField_setField_self (fs : List (String × JsonValue)) (k : String) (v : JsonValue) :
    getField (setField fs k v) k = v := by
  induction fs with
  | nil => simp [setField, getField]
  | cons p rest ih =>
    obtain ⟨k', w⟩ := p
    by_cases hk : k' = k
    · simp [setField, hk, getField]
    · simp [setField, hk, getField, ih]

theorem getField_setField_other (fs : List (String × JsonValue)) (k k' : String)
    (v : JsonValue) (hne : k ≠ k') : getField (setField fs k v) k' = getField fs k' := by
  induction fs with
  | nil => simp [setField, getField, hne]
  | cons p rest ih =>
    obtain ⟨k₀, w⟩ := p
    by_cases hk : k₀ = k
    · subst hk
      simp [setField, getField, hne]
    · simp [setField, hk, getField, ih]

/-- If the accumulated `resumeArray` errors are empty, every element
passed `validateResumeResponse`. -/
theorem resumeArrayErrors_nil_valid (l : List JsonValue) :
    ∀ i : Nat, resumeArrayErrors l i = [] →
      ∀ r ∈ l, (validateResumeResponse r).valid = true := by
  induction l with
  | nil =>
    intro i _ r hr
    cases hr
  | cons x rest ih =>
    intro i h r hr
    simp only [resumeArrayErrors] at h
    rw [List.append_eq_nil] at h
    obtain ⟨h1, h2⟩ := h
    rcases List.mem_cons.mp hr with heq | hr
    · subst heq
      by_cases hv : (validateResumeResponse r).valid = true
      · exact hv
      · rw [Bool.not_eq_true] at hv
        simp [hv] at h1
    · exact ih (i + 1) h2 r hr

/-- A resume record that passed response validation has a non-empty
(after trim) string in `id` or in `_id`. -/
theorem valid_resume_has_id (r : JsonValue)
    (h : (validateResumeResponse r).valid = true) :
    isNonEmptyStringV (jsGet r "id") = true ∨ isNonEmptyStringV (jsGet r "_id") = true := by
  by_cases h1 : isNonEmptyStringV (jsGet r "id") = true
  · exact Or.inl h1
  by_cases h2 : isNonEmptyStringV (jsGet r "_id") = true
  · exact Or.inr h2
  exfalso
  rw [Bool.not_eq_true] at h1 h2
  by_cases hobj : isObjectV r = true
  · simp only [validateResumeResponse] at h
    rw [hobj] at h
    simp only [Bool.not_true, Bool.false_eq_true, if_false] at h
    simp [h1, h2] at h
  · rw [Bool.not_eq_true] at hobj
    simp only [validateResumeResponse] at h
    rw [hobj] at h
    simp at h

/-- If some element fails response validation, the accumulated
`resumeArray` error list is nonempty. -/
theorem invalid_elem_errors_ne_nil (l : List JsonValue) :
    ∀ i : Nat, (∃ r ∈ l, (validateResumeResponse r).valid = false) →
      resumeArrayErrors l i ≠ [] := by
  induction l with
  | nil =>
    rintro i ⟨r, hr, _⟩
    cases hr
  | cons x rest ih =>
    rintro i ⟨r, hr, hv⟩ h0
    simp only [resumeArrayErrors] at h0
    rw [List.append_eq_nil] at h0
    obtain ⟨h1, h2⟩ := h0
    rcases List.mem_cons.mp hr with heq | hr
    · subst heq
      simp [hv] at h1
    · exact ih (i + 1) ⟨r, hr, hv⟩ h2

/-- An object record carrying neither `_id` nor `id` is rewritten to
carry `_id = ""`, which fails response validation. -/
theorem rewriteId_missing_invalid (x : JsonValue) (hobj : isObjectV x = true)
    (h1 : isUndef (jsGet x "_id") = true) (h2 : isUndef (jsGet x "id") = true) :
    (validateResumeResponse (rewriteId x)).valid = false := by
  cases x with
  | obj fs =>
    have hider : getField fs "_id" = .undefined := isUndef_eq h1
    have hid : getField fs "id" = .undefined := isUndef_eq h2
    have hrw : rewriteId (.obj fs) = .obj (setField fs "_id" (.str "")) := by
      simp [rewriteId, jsGet, hider, hid, truthy]
    rw [hrw]
    have hg1 : jsGet (.obj (setField fs "_id" (.str ""))) "_id" = .str "" := by
      simp [jsGet, getField_setField_self]
    have hg2 : jsGet (.obj (setField fs "_id" (.str ""))) "id" = .undefined := by
      show getField (setField fs "_id" (.str "")) "id" = .undefined
      rw [getField_setField_other fs "_id" "id" _ (by decide)]
      exact hid
    have hstr : isNonEmptyStringV (.str "") = false := by decide
    have hv : (validateResumeResponse (.obj (setField fs "_id" (.str "")))).valid
        = ((validateResumeResponse (.obj (setField fs "_id" (.str "")))).errors.length == 0) :=
      rfl
    have hmem : "id or _id is required and must be a non-empty string"
        ∈ (validateResumeResponse (.obj (setField fs "_id" (.str "")))).errors := by
      simp only [validateResumeResponse, isObjectV, Bool.not_true, Bool.false_eq_true, if_false]
      rw [hg1, hg2, hstr]
      simp [isNonEmptyStringV]
    have hne := List.ne_nil_of_mem hmem
    have hlen : (validateResumeResponse (.obj (setField fs "_id" (.str "")))).errors.length ≠ 0 := by
      intro h0
      exact hne (List.length_eq_zero.mp h0)
    rw [hv, beq_eq_false_iff_ne]
    exact hlen
  | str s => simp [isObjectV] at hobj
  | num n => simp [isObjectV] at hobj
  | bool b => simp [isObjectV] at hobj
  | null => simp [isObjectV] at hobj
  | undefined => simp [isObjectV] at hobj
  | arr xs => simp [isObjectV] at hobj

/-- C10 (amended): `getAll` rewrites each record's `_id` to the
original `_id` when truthy, else to `id`, else to `""`, before
validation; every resume in a successfully returned array therefore has
a non-empty (after trim) string under `id` or `_id` (the rewritten
`_id` itself may be a non-string truthy value copied from the source
record); and a record carrying neither `_id` nor `id` makes `getAll`
throw a `validation`-kind error instead of returning. -/
theorem getAll_rewrites_and_validates (body : JsonValue) (xs : List JsonValue)
    (hdata : jsGet body "data" = .arr xs) :
    (∀ rs, getAllBody body = some (.ok (.arr rs)) →
      rs = xs.map rewriteId ∧
      ∀ r ∈ rs, isNonEmptyStringV (jsGet r "id") = true
        ∨ isNonEmptyStringV (jsGet r "_id") = true) ∧
    (∀ x ∈ xs, isObjectV x = true → isUndef (jsGet x "_id") = true →
      isUndef (jsGet x "id") = true →
      getAllBody body
        = some (.error (createValidationError ("Invalid API response: "
            ++ joinSemi (resumeArrayErrors (xs.map rewriteId) 0))))) := by
  constructor
  · intro rs hok
    simp only [getAllBody, hdata] at hok
    cases hva : validateApiResponse (.arr (xs.map rewriteId)) .resumeArray with
    | error e =>
      rw [hva] at hok
      simp at hok
    | ok u =>
      rw [hva] at hok
      simp only [Option.some.injEq, Except.ok.injEq, JsonValue.arr.injEq] at hok
      refine ⟨hok.symm, ?_⟩
      have herr : resumeArrayErrors (xs.map rewriteId) 0 = [] := by
        simp only [validateApiResponse, isArrayV, Bool.not_true, Bool.false_eq_true,
          if_false, arrElems] at hva
        by_cases hlen : 0 < (resumeArrayErrors (xs.map rewriteId) 0).length
        · rw [if_pos hlen] at hva
          cases hva
        · rw [Nat.pos_iff_ne_zero, Ne, not_not, List.length_eq_zero] at hlen
          exact hlen
      intro r hr
      rw [← hok] at hr
      exact valid_resume_has_id r
        (resumeArrayErrors_nil_valid (xs.map rewriteId) 0 herr r hr)
  · intro x hx hobjx hu1 hu2
    have hinv : (validateResumeResponse (rewriteId x)).valid = false :=
      rewriteId_missing_invalid x hobjx hu1 hu2
    have hne : resumeArrayErrors (xs.map rewriteId) 0 ≠ [] :=
      invalid_elem_errors_ne_nil (xs.map rewriteId) 0
        ⟨rewriteId x, List.mem_map_of_mem _ hx, hinv⟩
    have hlen : 0 < (resumeArrayErrors (xs.map rewriteId) 0).length :=
      List.length_pos.mpr hne
    simp only [getAllBody, hdata]
    simp only [validateApiResponse, isArrayV, Bool.not_true, Bool.false_eq_true,
      if_false, arrElems]
    rw [if_pos hlen]

/-- C10 witness: a record with neither `_id` nor `id` makes `getAll`
fail with a `validation` error. -/
theorem getAll_rewrites_and_validates_witness :
    jsGet (.obj [("data", .arr [.obj [("name", .str "A")]])]) "data"
        = .arr [.obj [("name", .str "A")]] ∧
    getAllBody (.obj [("data", .arr [.obj [("name", .str "A")]])])
        = some (.error (createValidationError ("Invalid API response: "
            ++ joinSemi (resumeArrayErrors ([.obj [("name", .str "A")]].map rewriteId) 0)))) :=
  ⟨rfl,
   (getAll_rewrites_and_validates (.obj [("data", .arr [.obj [("name", .str "A")]])])
      [.obj [("name", .str "A")]] rfl).2 (.obj [("name", .str "A")])
      (List.mem_singleton.mpr rfl) rfl rfl rfl⟩

/-- C10 counterexample: a record whose original `_id` is the (truthy)
number `5` but whose `id` is a non-empty string passes validation, so
`getAll` succeeds while returning a resume whose `_id` is not a string
at all — refuting "every resume in a successfully returned array has a
non-empty string `_id`". -/
theorem getAll_nonstring_id_cex :
    getAllBody (.obj [("data", .arr [.obj [("_id", .num 5), ("id", .str "x"),
        ("name", .str "A")]])])
        = some (.ok (.arr [.obj [("_id", .num 5), ("id", .str "x"), ("name", .str "A")]])) ∧
    isStringV (jsGet (.obj [("_id", .num 5), ("id", .str "x"), ("name", .str "A")]) "_id")
        = false := ⟨rfl, rfl⟩

/-! ## C8: URL building -/

theorem stripTrailingSlashes_no_slash {l : List Char} (h : l.getLast? ≠ some '/') :
    stripTrailingSlashes l = l := by
  induction l using List.reverseRecOn with
  | nil => rfl
  | append_singleton b c _ih =>
    rw [List.getLast?_concat] at h
    have hc : (c == '/') = false := by
      rw [beq_eq_false_iff_ne]
      intro hceq
      exact h (by rw [hceq])
    simp [stripTrailingSlashes, List.dropWhile_cons, hc]

/-- The base half of `buildUrl` agrees with stripping all trailing
slashes whenever the configured base does not end in a double slash. -/
theorem buildUrl_base_part (base : List Char) (hb : ¬ (['/', '/'] <:+ base)) :
    (if base.getLast? == some '/' then base.dropLast else base)
      = stripTrailingSlashes base := by
  induction base using List.reverseRecOn with
  | nil => rfl
  | append_singleton b c _ih =>
    by_cases hc : c = '/'
    · subst hc
      rw [if_pos (by simp [List.getLast?_concat]), List.dropLast_concat]
      have hb' : b.getLast? ≠ some '/' := by
        intro hlast
        apply hb
        have hbne : b ≠ [] := by
          intro h0
          rw [h0] at hlast
          cases hlast
        have hsplit : b.dropLast ++ [b.getLast hbne] = b :=
          List.dropLast_concat_getLast hbne
        have hgl : b.getLast hbne = '/' := by
          have hq : b.getLast? = some (b.getLast hbne) := List.getLast?_eq_getLast b hbne
          rw [hlast] at hq
          exact (Option.some.injEq _ _).mp hq.symm
        refine ⟨b.dropLast, ?_⟩
        rw [← hsplit, hgl]
        simp
      have hstep : stripTrailingSlashes (b ++ ['/']) = stripTrailingSlashes b := by
        simp [stripTrailingSlashes, List.dropWhile_cons]
      rw [hstep, stripTrailingSlashes_no_slash hb']
    · rw [if_neg (by simp [List.getLast?_concat, hc])]
      exact (stripTrailingSlashes_no_slash (by simp [List.getLast?_concat, hc])).symm

/-- The path half of `buildUrl` agrees with one slash followed by the
path stripped of leading slashes, whenever the path does not begin with
a double slash. -/
theorem buildUrl_path_part (path : List Char) (hp : ¬ (['/', '/'] <+: path)) :
    (if path.head? == some '/' then path else '/' :: path)
      = '/' :: stripLeadingSlashes path := by
  cases path with
  | nil => rfl
  | cons c rest =>
    by_cases hc : c = '/'
    · subst hc
      rw [if_pos (by simp)]
      have hr : stripLeadingSlashes ('/' :: rest) = rest := by
        cases rest with
        | nil => rfl
        | cons c₂ r₂ =>
          have hc₂ : c₂ ≠ '/' := by
            intro h0
            subst h0
            exact hp ⟨r₂, rfl⟩
          simp [stripLeadingSlashes, List.dropWhile_cons, hc₂]
      rw [hr]
    · rw [if_neg (by simp [hc])]
      have hkeep : stripLeadingSlashes (c :: rest) = c :: rest := by
        simp [stripLeadingSlashes, List.dropWhile_cons, hc]
      rw [hkeep]

/-- C8 (amended): provided the configured base does not end in two or
more slashes and the path does not start with two or more slashes, the
URL built by the client is the base (trailing slashes removed), exactly
one slash, then the path (leading slashes removed) — one slash at the
junction. -/
theorem buildUrl_one_slash (base path : List Char)
    (hb : ¬ (['/', '/'] <:+ base)) (hp : ¬ (['/', '/'] <+: path)) :
    buildUrl base path = oneSlashJoin base path := by
  show (if base.getLast? == some '/' then base.dropLast else base)
      ++ (if path.head? == some '/' then path else '/' :: path)
    = stripTrailingSlashes base ++ '/' :: stripLeadingSlashes path
  rw [buildUrl_base_part base hb, buildUrl_path_part path hp]

/-- C8 witness: the default base and the resume path join with exactly
one slash. -/
theorem buildUrl_one_slash_witness :
    ¬ (['/', '/'] <:+ "http://localhost:8000".toList) ∧
    ¬ (['/', '/'] <+: "/resume".toList) ∧
    buildUrl "http://localhost:8000".toList "/resume".toList
        = oneSlashJoin "http://localhost:8000".toList "/resume".toList :=
  ⟨by decide, by decide, buildUrl_one_slash _ _ (by decide) (by decide)⟩

/-- C8 counterexample: a base URL ending in a double slash produces two
slashes between base and path, so "exactly one slash" fails for some
base/path pairs. -/
theorem buildUrl_double_slash_cex :
    buildUrl "http://host//".toList "p".toList = "http://host//p".toList ∧
    oneSlashJoin "http://host//".toList "p".toList = "http://host/p".toList ∧
    buildUrl "http://host//".toList "p".toList
      ≠ oneSlashJoin "http://host//".toList "p".toList := ⟨by decide, by decide, by decide⟩
